import Mathlib

/-!
Shallow embedding of the MIDI event scheduler in
`src/services/midiScheduler.js` (class `MidiScheduler`, class `MidiEvent`)
together with the output transport `MidiService` it drives
(`src/services/midiService.js`).

Numbers that are JavaScript floats (beats, bars, milliseconds, speed
multipliers) are modelled as rationals `ℚ`; machine timestamps
(`Date.now()`) are also rationals.  JavaScript `Math.floor` is `Int.floor`
and the JavaScript remainder operator `%` (which truncates toward zero) is
modelled explicitly by `jsRem` below.  Fields that are `undefined` until
first written (such as `virtualBeatOffset`) are modelled as `Option`
values, and JavaScript truthiness tests on numbers compare against `0`.
-/

namespace MidiSched

/-- JavaScript `Math.trunc` on a rational: rounding toward zero. -/
def jsTrunc (x : ℚ) : ℤ :=
  if 0 ≤ x then ⌊x⌋ else ⌈x⌉

/-- The JavaScript remainder operator `x % y` on numbers: the remainder of
truncating division, carrying the sign of the dividend. -/
def jsRem (x y : ℚ) : ℚ :=
  x - y * (jsTrunc (x / y) : ℚ)

/-- JavaScript `a || b` for a number `a` with fallback `b`: `0` is falsy. -/
def orElseNum (a b : ℚ) : ℚ :=
  if a = 0 then b else a

/-- Event types, from the `EventType` table in `midiScheduler.js` (the
string `'SAFETY_NOTEOFF'` used by `scheduleSafetyNoteOffs` is included as
its own tag). -/
inductive EventType where
  | noteOn
  | noteOff
  | cc
  | programChange
  | pitchBend
  | clock
  | start
  | stop
  | continueT
  | safetyNoteOff
deriving DecidableEq, Repr

/-- A scheduled MIDI event: class `MidiEvent`.  The constructor defaults
are in `mkEvent` below.  `executed` is the "fired at least once" flag,
`scheduledTime` the armed fire timestamp (`null` = `none`) and
`cancelled` is set by `clear()` so that in-flight timer callbacks become
no-ops.  `dataChannels` models `data.channels`, the only field of the
free-form `data` object the scheduler ever reads. -/
structure MidiEvent where
  type : EventType
  beat : ℚ
  bar : ℚ
  note : ℤ
  velocity : ℤ
  duration : ℚ
  channel : ℤ
  controller : ℤ
  value : ℤ
  dataChannels : Option (List ℤ)
  executed : Bool
  scheduledTime : Option ℚ
  cancelled : Bool
deriving DecidableEq, Repr

/-- `MidiEvent.getAbsoluteBeat(quantum)`: `bar * quantum + beat`. -/
def MidiEvent.getAbsoluteBeat (e : MidiEvent) (quantum : ℚ) : ℚ :=
  e.bar * quantum + e.beat

/-- A wire-level message sent through the output transport
(`MidiService`). -/
inductive MidiMsg where
  | noteOn (note velocity channel : ℤ)
  | noteOff (note channel : ℤ)
  | ccMsg (controller value channel : ℤ)
  | progChange (value channel : ℤ)
  | pitchBend (value channel : ℤ)
  | clockMsg
  | startMsg
  | stopMsg
deriving DecidableEq, Repr

/-- The slice of `MidiService` state the scheduler reads: the boolean
connected status.  Each send helper checks it and silently drops the
message when disconnected (returning `false` in the source). -/
structure MidiService where
  isConnected : Bool
deriving DecidableEq, Repr

/-- `MidiService.sendNoteOn`: emits the message only when connected. -/
def MidiService.sendNoteOn (svc : MidiService) (note velocity channel : ℤ) :
    List MidiMsg :=
  if svc.isConnected then [.noteOn note velocity channel] else []

/-- `MidiService.sendNoteOff`: emits the message only when connected. -/
def MidiService.sendNoteOff (svc : MidiService) (note channel : ℤ) :
    List MidiMsg :=
  if svc.isConnected then [.noteOff note channel] else []

/-- `MidiService.sendCC`: emits the message only when connected. -/
def MidiService.sendCC (svc : MidiService) (controller value channel : ℤ) :
    List MidiMsg :=
  if svc.isConnected then [.ccMsg controller value channel] else []

/-- `MidiService.sendClock`. -/
def MidiService.sendClock (svc : MidiService) : List MidiMsg :=
  if svc.isConnected then [.clockMsg] else []

/-- `MidiService.sendStart`. -/
def MidiService.sendStart (svc : MidiService) : List MidiMsg :=
  if svc.isConnected then [.startMsg] else []

/-- `MidiService.sendStop`. -/
def MidiService.sendStop (svc : MidiService) : List MidiMsg :=
  if svc.isConnected then [.stopMsg] else []

/-- The Ableton Link clock interface the scheduler reads:
`(beat, bpm, quantum)`. -/
structure Link where
  beat : ℚ
  bpm : ℚ
  quantum : ℚ
deriving DecidableEq, Repr

/-- The `stats` record of the scheduler. -/
structure Stats where
  eventsScheduled : ℕ
  eventsExecuted : ℕ
  notesPlayed : ℕ
  lastEventTime : Option ℚ
deriving DecidableEq, Repr

/-- The active-note registry: the JavaScript `Map` keyed by the string
`"${channel}-${note}"`, modelled as an association list keyed by the pair
`(channel, note)`.  `Map.set` replaces an existing binding in place,
`Map.delete` removes it. -/
abbrev NoteRegistry := List ((ℤ × ℤ) × MidiEvent)

/-- `Map.set` on the registry: replace the binding if the key is present,
otherwise append it. -/
def registrySet (m : NoteRegistry) (k : ℤ × ℤ) (v : MidiEvent) :
    NoteRegistry :=
  if m.any (fun kv => decide (kv.1 = k)) then
    m.map (fun kv => if kv.1 = k then (k, v) else kv)
  else
    m ++ [(k, v)]

/-- `Map.delete` on the registry. -/
def registryDelete (m : NoteRegistry) (k : ℤ × ℤ) : NoteRegistry :=
  m.filter (fun kv => decide (¬ kv.1 = k))

/-- The mutable state of a `MidiScheduler` instance (constructor,
lines 62–97 of `midiScheduler.js`).  `link` is `Option` because the
scheduler guards several reads with `this.link?.…`. -/
structure SchedulerState where
  midiService : MidiService
  link : Option Link
  events : List MidiEvent
  activeNotes : NoteRegistry
  lookaheadTime : ℚ
  scheduleInterval : ℚ
  latencyCompensation : ℚ
  playbackSpeed : ℚ
  isRunning : Bool
  lastScheduledBeat : ℚ
  loopLength : ℚ
  loopStart : ℚ
  virtualBeatOffset : Option ℚ
  lastUpdateBeat : ℚ
  stats : Stats
deriving DecidableEq, Repr

/-- `this.link?.quantum || 4`. -/
def SchedulerState.jsQuantum (s : SchedulerState) : ℚ :=
  match s.link with
  | none => 4
  | some l => orElseNum l.quantum 4

/-- `this.link?.beat || 0`. -/
def SchedulerState.jsBeat (s : SchedulerState) : ℚ :=
  match s.link with
  | none => 0
  | some l => orElseNum l.beat 0

/-- `this.link?.bpm || 120`. -/
def SchedulerState.jsBpm (s : SchedulerState) : ℚ :=
  match s.link with
  | none => 120
  | some l => orElseNum l.bpm 120

/-- `stopAllNotes()`: send a note-off for every registered
`(channel, note)` pair and empty the registry.  The registry key
`"${channel}-${note}"` is split back into `(channel, note)` and the call
is `sendNoteOff(note, channel)`. -/
def stopAllNotes (s : SchedulerState) : SchedulerState × List MidiMsg :=
  ({ s with activeNotes := [] },
   s.activeNotes.flatMap (fun kv => s.midiService.sendNoteOff kv.1.2 kv.1.1))

/-- `clear()` (lines 144–155): mark every event cancelled (dropped
together with the queue here, since the queue is emptied; the flag only
matters to aliased in-flight timer callbacks, which `executeEvent` checks
first), empty the queue, stop all active notes, reset
`lastScheduledBeat` to `-1` and zero the `eventsScheduled` /
`eventsExecuted` counters. -/
def clearS (s : SchedulerState) : SchedulerState × List MidiMsg :=
  let s1 : SchedulerState :=
    { s with
      events := []
      lastScheduledBeat := -1
      stats := { s.stats with eventsScheduled := 0, eventsExecuted := 0 } }
  stopAllNotes s1

/-- `setLoop(length, start)` (lines 303–307). -/
def setLoop (s : SchedulerState) (length start : ℚ) : SchedulerState :=
  { s with loopLength := length, loopStart := start }

/-- `setLatencyCompensation(ms)` (lines 637–645): clamp to `[-500, 500]`. -/
def setLatencyCompensation (s : SchedulerState) (ms : ℚ) : SchedulerState :=
  { s with latencyCompensation := max (-500) (min 500 ms) }

/-- `setPlaybackSpeed(speed)` (lines 659–674): clamp to `[0.1, 4.0]`;
when the clamped speed differs from the old one by more than `0.05`,
clear every event's `executed` flag, set `virtualBeatOffset` to `0` and
`lastUpdateBeat` to `this.link?.beat || 0`. -/
def setPlaybackSpeed (s : SchedulerState) (speed : ℚ) : SchedulerState :=
  let oldSpeed := s.playbackSpeed
  let newSpeed := max (1/10) (min 4 speed)
  let s1 := { s with playbackSpeed := newSpeed }
  if 1/20 < |oldSpeed - newSpeed| then
    { s1 with
      events := s1.events.map (fun e => { e with executed := false })
      virtualBeatOffset := some 0
      lastUpdateBeat := s.jsBeat }
  else
    s1

/-- Parameter object for the `MidiEvent` constructor, with the source's
default values.  An absent property of the JavaScript object literal is a
field left at its default. -/
structure EvSpec where
  type : EventType := .noteOn
  beat : ℚ := 0
  bar : ℚ := 0
  note : ℤ := 60
  velocity : ℤ := 100
  duration : ℚ := 1/4
  channel : ℤ := 0
  controller : ℤ := 0
  value : ℤ := 0
  dataChannels : Option (List ℤ) := none
deriving DecidableEq, Repr

/-- The `MidiEvent` constructor: copies the parameters and initialises
`executed = false`, `scheduledTime = null` (and no `cancelled` mark). -/
def mkEvent (p : EvSpec) : MidiEvent :=
  { type := p.type
    beat := p.beat
    bar := p.bar
    note := p.note
    velocity := p.velocity
    duration := p.duration
    channel := p.channel
    controller := p.controller
    value := p.value
    dataChannels := p.dataChannels
    executed := false
    scheduledTime := none
    cancelled := false }

/-- `addEvent(event)` (lines 161–179): push the event, bump
`eventsScheduled`, and re-sort the queue by absolute beat position
computed against `this.link?.quantum || 4`. -/
def addEvent (s : SchedulerState) (e : MidiEvent) :
    SchedulerState × MidiEvent :=
  let q := s.jsQuantum
  let sorted :=
    (s.events ++ [e]).mergeSort
      (fun a b => decide (a.getAbsoluteBeat q ≤ b.getAbsoluteBeat q))
  ({ s with
      events := sorted
      stats := { s.stats with
                 eventsScheduled := s.stats.eventsScheduled + 1 } },
   e)

/-- Parameter object for `addNote`, with the source's defaults. -/
structure NoteParams where
  beat : ℚ := 0
  bar : ℚ := 0
  note : ℤ := 60
  velocity : ℤ := 100
  duration : ℚ := 1/4
  channel : ℤ := 0
deriving DecidableEq, Repr

/-- The `NOTE_ON` event `addNote` inserts. -/
def noteOnEventOf (p : NoteParams) : MidiEvent :=
  mkEvent
    { type := .noteOn
      beat := p.beat
      bar := p.bar
      note := p.note
      velocity := p.velocity
      channel := p.channel
      duration := p.duration }

/-- The `NOTE_OFF` event `addNote` inserts (lines 212–226): the off
position is `absoluteBeat + duration`, split into a bar via `Math.floor`
and a beat-in-bar via the `%` operator against the quantum. -/
def noteOffEventOf (q : ℚ) (p : NoteParams) : MidiEvent :=
  let absoluteBeat := p.bar * q + p.beat
  let offBeat := absoluteBeat + p.duration
  let offBar : ℤ := ⌊offBeat / q⌋
  let offBeatInBar := jsRem offBeat q
  mkEvent
    { type := .noteOff
      beat := offBeatInBar
      bar := (offBar : ℚ)
      note := p.note
      channel := p.channel }

/-- `addNote(params)` (lines 193–234): insert the `NOTE_ON`, then the
matching `NOTE_OFF` at `absoluteBeat + duration`, both through
`addEvent`.  The quantum for the off position is
`this.link?.quantum || 4`. -/
def addNote (s : SchedulerState) (p : NoteParams) : SchedulerState :=
  let s1 := (addEvent s (noteOnEventOf p)).1
  let q := s1.jsQuantum
  (addEvent s1 (noteOffEventOf q p)).1

/-- `addChord(params)` (lines 240–251): one `addNote` per chord note. -/
def addChord (s : SchedulerState) (beat bar : ℚ) (notes : List ℤ)
    (velocity : ℤ) (duration : ℚ) (channel : ℤ) : SchedulerState :=
  notes.foldl
    (fun st n =>
      addNote st
        { beat := beat, bar := bar, note := n, velocity := velocity
          duration := duration, channel := channel })
    s

/-- `sendSafetyNoteOffs(channels, onlyActiveChannels)` (lines 570–614):
no-op when the transport is disconnected; otherwise resolve the target
channels (the active channels, the given list, or all 16), send a
note-off for every one of the 128 MIDI note numbers on each target
channel, and delete the registry entries whose channel is a target. -/
def sendSafetyNoteOffs (s : SchedulerState) (channels : Option (List ℤ))
    (onlyActiveChannels : Bool) : SchedulerState × List MidiMsg :=
  if s.midiService.isConnected = false then (s, [])
  else
    let targetChannels : List ℤ :=
      if onlyActiveChannels then
        (s.activeNotes.map (fun kv => kv.1.1)).dedup
      else
        match channels with
        | some cs => cs
        | none => (List.range 16).map (fun i => (i : ℤ))
    let msgs :=
      targetChannels.flatMap
        (fun ch =>
          (List.range 128).flatMap
            (fun n => s.midiService.sendNoteOff (n : ℤ) ch))
    ({ s with
        activeNotes :=
          s.activeNotes.filter
            (fun kv => !(targetChannels.contains kv.1.1)) },
     msgs)

/-- `scheduleSafetyNoteOffs(beat, channels)` (lines 621–631): queue a
`SAFETY_NOTEOFF` event at the given beat (bar 0) carrying the channel
list in its `data`. -/
def scheduleSafetyNoteOffs (s : SchedulerState) (beat : ℚ)
    (channels : Option (List ℤ)) : SchedulerState × MidiEvent :=
  addEvent s
    (mkEvent
      { type := .safetyNoteOff, beat := beat, bar := 0
        dataChannels := channels })

/-- `executeEvent(event)` (lines 479–551): a cancelled event is a no-op;
a disconnected transport makes the call return early (a console warning
only — no state change, nothing sent, nothing counted).  Otherwise the
event is dispatched by type, the active-note registry and `notesPlayed`
are maintained for note events, and `eventsExecuted` / `lastEventTime`
are updated.  `now` is the `Date.now()` timestamp of the call.  The
`CONTINUE` event type has no case in the source's switch, so it sends
nothing. -/
def executeEvent (s : SchedulerState) (e : MidiEvent) (now : ℚ) :
    SchedulerState × List MidiMsg :=
  if e.cancelled then (s, [])
  else if s.midiService.isConnected = false then (s, [])
  else
    let stepped : SchedulerState × List MidiMsg :=
      match e.type with
      | .noteOn =>
          ({ s with
              activeNotes := registrySet s.activeNotes (e.channel, e.note) e
              stats := { s.stats with
                         notesPlayed := s.stats.notesPlayed + 1 } },
           s.midiService.sendNoteOn e.note e.velocity e.channel)
      | .noteOff =>
          ({ s with
              activeNotes := registryDelete s.activeNotes (e.channel, e.note) },
           s.midiService.sendNoteOff e.note e.channel)
      | .cc => (s, s.midiService.sendCC e.controller e.value e.channel)
      | .programChange => (s, [.progChange e.value e.channel])
      | .pitchBend => (s, [.pitchBend e.value e.channel])
      | .start => (s, s.midiService.sendStart)
      | .stop => (s, s.midiService.sendStop)
      | .clock => (s, s.midiService.sendClock)
      | .continueT => (s, [])
      | .safetyNoteOff => sendSafetyNoteOffs s e.dataChannels false
    ({ stepped.1 with
        stats := { stepped.1.stats with
                   eventsExecuted := stepped.1.stats.eventsExecuted + 1
                   lastEventTime := some now } },
     stepped.2)

/-- The body of the one-shot timer callback armed by `scheduleEvents`
(lines 453–458), which is also the immediate-execution body
(lines 439–442): when the scheduler is still running, run
`executeEvent` and mark the event executed afterwards.  The returned
`MidiEvent` is the fired event with its updated `executed` flag. -/
def timerFireEvent (s : SchedulerState) (e : MidiEvent) (now : ℚ) :
    (SchedulerState × MidiEvent) × List MidiMsg :=
  if s.isRunning then
    let r := executeEvent s e now
    ((r.1, { e with executed := true }), r.2)
  else ((s, e), [])

/-- One entry of an `addPattern` pattern array: either a bare note number
or an object `{ note, duration = 0.25, velocity, rest = false }` (an
absent `note` or `velocity` is `none`; `velocity` passed through as
`undefined` falls back to the `MidiEvent` constructor default `100`). -/
inductive PatternNote where
  | num (note : ℤ)
  | obj (note : Option ℤ) (duration : Option ℚ) (velocity : Option ℤ)
      (rest : Bool)
deriving DecidableEq, Repr

/-- The bar-carry loop of `addPattern`
(`while (currentBeat >= this.link.quantum) { currentBeat -= quantum;
currentBar++ }`) in closed form: the number of iterations for a positive
quantum.  For `q ≤ 0` with `beat ≥ q` the source loop never terminates;
that divergent case is left with zero iterations here and is outside
every property below. -/
def wrapBarCarry (beat q : ℚ) : ℕ :=
  if 0 < q then (max 0 ⌊beat / q⌋).toNat else 0

/-- One step of `addPattern`'s `forEach` body (lines 262–295), acting on
the scheduler state and the running `(currentBeat, currentBar)` cursor,
before the bar-carry loop. -/
def addPatternEntry (s : SchedulerState) (cb cbar : ℚ) (n : PatternNote) :
    SchedulerState × ℚ :=
  match n with
  | .num note =>
      (addNote s { beat := cb, bar := cbar, note := note, duration := 1/4 },
       cb + 1/4)
  | .obj note dur vel rest =>
      let duration := dur.getD (1/4)
      let s' :=
        match note, rest with
        | some nn, false =>
            addNote s
              { beat := cb, bar := cbar, note := nn
                velocity := vel.getD 100, duration := duration }
        | _, _ => s
      (s', cb + duration)

/-- `addPattern(pattern, startBar)` (lines 258–296).  The bar-carry loop
reads `this.link.quantum` without a fallback, so with no `link` the read
throws mid-iteration; the boolean result records whether the call threw.
Entries processed before the throw remain added. -/
def addPattern (s : SchedulerState) (pattern : List PatternNote)
    (startBar : ℚ) : SchedulerState × Bool :=
  let rec go (s : SchedulerState) (cb cbar : ℚ)
      (rest : List PatternNote) : SchedulerState × Bool :=
    match rest with
    | [] => (s, false)
    | n :: ns =>
        let (s', cb') := addPatternEntry s cb cbar n
        match s'.link with
        | none => (s', true)
        | some l =>
            let k := wrapBarCarry cb' l.quantum
            go s' (cb' - (k : ℚ) * l.quantum) (cbar + (k : ℚ)) ns
  go s 0 startBar pattern

/-- One `{ pattern, startBar = 0 }` element of a document's `patterns`
array; `pattern = none` models an element whose `pattern` key is absent
(its `forEach` then throws). -/
structure PatternSpec where
  pattern : Option (List PatternNote)
  startBar : Option ℚ
deriving DecidableEq, Repr

/-- A parsed (non-null) pattern document for `loadPattern`: the wire
format of the spec plus the `patterns` key the source also accepts.
`events = none` models an absent or non-array `events` key (skipped
silently); a `none` inside one of the lists models a `null` element,
which throws when destructured. -/
structure PatternDoc where
  tempo : Option ℚ
  loop : Option (ℚ × Option ℚ)
  events : Option (List (Option EvSpec))
  patterns : Option (List (Option PatternSpec))
deriving DecidableEq, Repr

/-- `addEvents(events)` as invoked from `loadPattern` on raw JSON
objects (lines 185–187, 161–163): each non-null element goes through the
`MidiEvent` constructor and `addEvent`; a `null` element throws in the
constructor's destructuring, ending the loop with the events added so
far still in the queue. -/
def addEventsPartial (s : SchedulerState) :
    List (Option EvSpec) → SchedulerState × Bool
  | [] => (s, false)
  | none :: _ => (s, true)
  | some p :: rest => addEventsPartial (addEvent s (mkEvent p)).1 rest

/-- The `patterns.forEach` branch of `loadPattern` (lines 725–729): a
`null` element or an element without a `pattern` array throws; otherwise
`addPattern(pattern, startBar || 0 default)` runs and may itself
throw. -/
def addPatternsPartial (s : SchedulerState) :
    List (Option PatternSpec) → SchedulerState × Bool
  | [] => (s, false)
  | none :: _ => (s, true)
  | some ps :: rest =>
      match ps.pattern with
      | none => (s, true)
      | some pat =>
          let r := addPattern s pat (ps.startBar.getD 0)
          if r.2 then r else addPatternsPartial r.1 rest

/-- `loadPattern(json)` (lines 704–732).  The call clears the live queue
first, unconditionally; only then is the document destructured, so a
`null` document (modelled `none`) throws after the clear has already
happened.  The boolean result records whether the call threw; the
returned state is the scheduler state at the throw point (JavaScript
exceptions do not roll back mutations of `this`).  The message list is
what the embedded `clear` sent while stopping active notes. -/
def loadPattern (s : SchedulerState) (j : Option PatternDoc) :
    (SchedulerState × List MidiMsg) × Bool :=
  let (s1, msgs) := clearS s
  match j with
  | none => ((s1, msgs), true)
  | some d =>
      let s2 :=
        match d.tempo, s1.link with
        | some t, some l =>
            if t = 0 then s1 else { s1 with link := some { l with bpm := t } }
        | _, _ => s1
      let s3 :=
        match d.loop with
        | some lp =>
            setLoop s2 lp.1 (match lp.2 with | none => 0 | some v => orElseNum v 0)
        | none => s2
      let r4 :=
        match d.events with
        | some es => addEventsPartial s3 es
        | none => (s3, false)
      if r4.2 then ((r4.1, msgs), true)
      else
        let r5 :=
          match d.patterns with
          | some ps => addPatternsPartial r4.1 ps
          | none => (r4.1, false)
        ((r5.1, msgs), r5.2)

/-- The per-pass context `scheduleEvents` (lines 324–350) computes before
iterating over the queue: the `Date.now()` timestamp, the clock readings
with their `||` fallbacks, the configuration fields it closes over, and
the virtual beat offset after the falsy-initialisation and update steps
of lines 342–350. -/
structure PassCtx where
  now : ℚ
  currentBeat : ℚ
  bpm : ℚ
  quantum : ℚ
  playbackSpeed : ℚ
  latencyCompensation : ℚ
  lookaheadTime : ℚ
  loopLength : ℚ
  lastScheduledBeat : ℚ
  virtualBeatOffset : ℚ
deriving DecidableEq, Repr

/-- Lines 342–350 of `scheduleEvents`: `!this.virtualBeatOffset` is the
JavaScript falsy test, true both for the initial `undefined` and for the
value `0`; in that case the offset restarts at `0` from the current
beat.  Then the offset advances by `beatDelta * (playbackSpeed - 1)`. -/
def updatedVirtualBeatOffset (vbo : Option ℚ) (lastUpdateBeat currentBeat
    playbackSpeed : ℚ) : ℚ :=
  let init : ℚ × ℚ :=
    match vbo with
    | none => (0, currentBeat)
    | some v => if v = 0 then (0, currentBeat) else (v, lastUpdateBeat)
  init.1 + (currentBeat - init.2) * (playbackSpeed - 1)

/-- Extract the pass context from a scheduler state, as the prologue of
`scheduleEvents` does. -/
def passCtxOf (s : SchedulerState) (now : ℚ) : PassCtx :=
  { now := now
    currentBeat := s.jsBeat
    bpm := s.jsBpm
    quantum := s.jsQuantum
    playbackSpeed := s.playbackSpeed
    latencyCompensation := s.latencyCompensation
    lookaheadTime := s.lookaheadTime
    loopLength := s.loopLength
    lastScheduledBeat := s.lastScheduledBeat
    virtualBeatOffset :=
      updatedVirtualBeatOffset s.virtualBeatOffset s.lastUpdateBeat
        s.jsBeat s.playbackSpeed }

/-- `msPerBeat = 60000 / (bpm * playbackSpeed)` (lines 336–337). -/
def PassCtx.msPerBeat (ctx : PassCtx) : ℚ :=
  60000 / (ctx.bpm * ctx.playbackSpeed)

/-- The speed-scaled loop position of the current pass,
`(currentBeat * playbackSpeed) % loopLength` (lines 376–380). -/
def PassCtx.loopPosition (ctx : PassCtx) : ℚ :=
  jsRem (ctx.currentBeat * ctx.playbackSpeed) ctx.loopLength

/-- The speed-scaled loop position of the previous pass,
`(lastScheduledBeat * playbackSpeed) % loopLength` (lines 377–381). -/
def PassCtx.lastLoopPosition (ctx : PassCtx) : ℚ :=
  jsRem (ctx.lastScheduledBeat * ctx.playbackSpeed) ctx.loopLength

/-- The loop-wrap test of line 385: the scaled loop position decreased
versus the previous pass. -/
def PassCtx.wrapDetected (ctx : PassCtx) : Prop :=
  ctx.loopPosition < ctx.lastLoopPosition

instance (ctx : PassCtx) : Decidable ctx.wrapDetected := by
  unfold PassCtx.wrapDetected
  infer_instance

/-- The per-event flag reset of lines 385–393, applied to the whole
queue when a wrap is detected in loop mode: an event that has actually
executed is reset (`executed := false`, `scheduledTime := null`); an
event that is merely armed but not yet fired is left untouched. -/
def wrapResetFn (e : MidiEvent) : MidiEvent :=
  if e.executed then { e with executed := false, scheduledTime := none }
  else e

/-- The wrap-reset step of a scheduling pass: in loop mode, when the
scaled loop position has decreased versus the previous pass, every
executed event's flags are cleared (lines 373–393); otherwise the queue
is untouched. -/
def passWrapStep (ctx : PassCtx) (events : List MidiEvent) :
    List MidiEvent :=
  if 0 < ctx.loopLength ∧ ctx.wrapDetected then events.map wrapResetFn
  else events

/-- The target beat the resolver computes for an event's absolute beat
(lines 370–409): the next loop occurrence measured forward around the
loop and scaled back by the playback speed when looping, or the static
absolute beat plus the virtual beat offset otherwise. -/
def targetBeatOf (ctx : PassCtx) (eventBeat : ℚ) : ℚ :=
  if 0 < ctx.loopLength then
    let scaledCurrentBeat := ctx.currentBeat * ctx.playbackSpeed
    let eventPositionInLoop := jsRem eventBeat ctx.loopLength
    let currentPositionInLoop := jsRem scaledCurrentBeat ctx.loopLength
    if currentPositionInLoop ≤ eventPositionInLoop then
      ctx.currentBeat +
        (eventPositionInLoop - currentPositionInLoop) / ctx.playbackSpeed
    else
      ctx.currentBeat +
        (ctx.loopLength - currentPositionInLoop + eventPositionInLoop) /
          ctx.playbackSpeed
  else eventBeat + ctx.virtualBeatOffset

/-- What a scheduling pass decides to do with one event: leave it alone,
execute it immediately on this pass, or arm a one-shot timer.  Both
firing decisions record the `scheduledTime` stamped on the event
(line 433), which is `now + compensatedDelay`. -/
inductive ScheduleDecision where
  | skip
  | fireNow (stamp : ℚ)
  | armTimer (delay stamp : ℚ)
deriving DecidableEq, Repr

/-- Whether a decision is the immediate-execution branch. -/
def ScheduleDecision.isFireNow : ScheduleDecision → Bool
  | .fireNow _ => true
  | _ => false

/-- `beatsUntilEvent = targetBeat - currentBeat` (line 412). -/
def beatsUntilEventOf (ctx : PassCtx) (e : MidiEvent) : ℚ :=
  targetBeatOf ctx (e.getAbsoluteBeat ctx.quantum) - ctx.currentBeat

/-- The nominal delay `beatsUntilEvent * msPerBeat` (line 423). -/
def msUntilEventOf (ctx : PassCtx) (e : MidiEvent) : ℚ :=
  beatsUntilEventOf ctx e * ctx.msPerBeat

/-- The latency-adjusted delay `msUntilEvent + latencyCompensation`
(line 425). -/
def compensatedDelayOf (ctx : PassCtx) (e : MidiEvent) : ℚ :=
  msUntilEventOf ctx e + ctx.latencyCompensation

/-- Line 416: `event.scheduledTime && event.scheduledTime > now` — the
event is already armed for a future fire time (`scheduledTime` of `0`
is falsy). -/
def isScheduledForFuture (e : MidiEvent) (now : ℚ) : Bool :=
  match e.scheduledTime with
  | none => false
  | some t => decide (¬ t = 0 ∧ now < t)

/-- The look-ahead window widened by negative latency compensation,
`lookaheadTime + |min(0, latencyCompensation)|` (line 420). -/
def effectiveLookaheadOf (ctx : PassCtx) : ℚ :=
  ctx.lookaheadTime + |min 0 ctx.latencyCompensation|

/-- The event as the window test of line 416 sees it: in loop mode with
a wrap detected, the queue-wide reset of lines 385–393 has already
cleared the event's own flags within the same iteration. -/
def eventAfterWrapOf (ctx : PassCtx) (e : MidiEvent) : MidiEvent :=
  if 0 < ctx.loopLength ∧ ctx.wrapDetected then wrapResetFn e else e

/-- The decision the body of `scheduleEvents`' `forEach` (lines 362–469)
takes for one event.  Faithful to the source's order: the
executed-and-not-looping skip of line 364 first; then the look-ahead
window test of line 422 (on the event as it stands after the in-pass
wrap reset), and the immediate-versus-timer split of lines 429–468 with
`delay = max(0, compensatedDelay)` and the stamp
`now + compensatedDelay` recorded on the event (line 433). -/
def processEvent (ctx : PassCtx) (e : MidiEvent) : ScheduleDecision :=
  if e.executed = true ∧ ctx.loopLength = 0 then .skip
  else if 0 ≤ beatsUntilEventOf ctx e ∧
      msUntilEventOf ctx e ≤ effectiveLookaheadOf ctx ∧
      isScheduledForFuture (eventAfterWrapOf ctx e) ctx.now = false then
    if max 0 (compensatedDelayOf ctx e) = 0 ∧ compensatedDelayOf ctx e < 0 then
      .fireNow (ctx.now + compensatedDelayOf ctx e)
    else
      .armTimer (max 0 (compensatedDelayOf ctx e))
        (ctx.now + compensatedDelayOf ctx e)
  else .skip

/-! ## Concrete fixtures used by witnesses and counterexamples -/

/-- A clock reading at beat 0, 120 bpm, quantum 4. -/
def theLink : Link := { beat := 0, bpm := 120, quantum := 4 }

/-- Zeroed statistics. -/
def baseStats : Stats :=
  { eventsScheduled := 0, eventsExecuted := 0, notesPlayed := 0
    lastEventTime := none }

/-- A freshly constructed scheduler (constructor defaults), connected,
running, with the clock above. -/
def baseState : SchedulerState :=
  { midiService := { isConnected := true }
    link := some theLink
    events := []
    activeNotes := []
    lookaheadTime := 200
    scheduleInterval := 25
    latencyCompensation := 0
    playbackSpeed := 1
    isRunning := true
    lastScheduledBeat := -1
    loopLength := 0
    loopStart := 0
    virtualBeatOffset := none
    lastUpdateBeat := 0
    stats := baseStats }

/-- A default event (`new MidiEvent({})`). -/
def sampleEvent : MidiEvent := mkEvent {}

/-! ## C10 — clear() and the statistics record -/

/-- C10: `clear()` resets the `eventsScheduled` and `eventsExecuted`
counters to 0 while leaving the `notesPlayed` and `lastEventTime`
statistics fields unchanged. -/
theorem clear_resets_exec_counters_only (s : SchedulerState) :
    (clearS s).1.stats.eventsScheduled = 0 ∧
    (clearS s).1.stats.eventsExecuted = 0 ∧
    (clearS s).1.stats.notesPlayed = s.stats.notesPlayed ∧
    (clearS s).1.stats.lastEventTime = s.stats.lastEventTime := by
  refine ⟨rfl, rfl, rfl, rfl⟩

/-! ## C9 — the loop resolver never reads loopStart -/

/-- C9: the target beat and the firing decision computed by a scheduling
pass are independent of the loop's start beat: two states differing only
in the `loopStart` recorded by `setLoop` yield the same target beat and
the same decision for every event on every pass. -/
theorem loopStart_does_not_affect_scheduling (s : SchedulerState)
    (len a b now : ℚ) (e : MidiEvent) :
    targetBeatOf (passCtxOf (setLoop s len a) now)
        (e.getAbsoluteBeat (passCtxOf (setLoop s len a) now).quantum) =
      targetBeatOf (passCtxOf (setLoop s len b) now)
        (e.getAbsoluteBeat (passCtxOf (setLoop s len b) now).quantum) ∧
    processEvent (passCtxOf (setLoop s len a) now) e =
      processEvent (passCtxOf (setLoop s len b) now) e := by
  have hctx : passCtxOf (setLoop s len a) now =
      passCtxOf (setLoop s len b) now := rfl
  rw [hctx]
  exact ⟨rfl, rfl⟩

/-! ## C5 — wrap detection resets exactly the executed events -/

/-- C5: on a pass in loop mode where the scaled loop position has
decreased versus the previous pass, the queue-wide reset clears exactly
the events whose `executed` flag is set (their `scheduledTime` is nulled
with it), and leaves every merely-armed-but-not-fired event completely
unchanged. -/
theorem wrap_resets_exactly_executed (ctx : PassCtx)
    (events : List MidiEvent) (h1 : 0 < ctx.loopLength)
    (h2 : ctx.wrapDetected) :
    passWrapStep ctx events = events.map wrapResetFn ∧
    (∀ e : MidiEvent, e.executed = true →
      wrapResetFn e = { e with executed := false, scheduledTime := none }) ∧
    (∀ e : MidiEvent, e.executed = false → wrapResetFn e = e) := by
  refine ⟨?_, ?_, ?_⟩
  · unfold passWrapStep
    rw [if_pos ⟨h1, h2⟩]
  · intro e he
    unfold wrapResetFn
    rw [if_pos he]
  · intro e he
    unfold wrapResetFn
    rw [he]
    simp

/-- A wrap-pass context: the loop is 4 beats long, the current pass sits
at scaled loop position 0 while the previous pass sat at 3.9. -/
def wrapCtx : PassCtx :=
  { now := 1000, currentBeat := 4, bpm := 120, quantum := 4
    playbackSpeed := 1, latencyCompensation := 0, lookaheadTime := 200
    loopLength := 4, lastScheduledBeat := 39/10, virtualBeatOffset := 0 }

/-- An event that has fired (executed, stale stamp). -/
def firedEvent : MidiEvent :=
  { sampleEvent with executed := true, scheduledTime := some 900 }

/-- An event merely armed for a future fire time. -/
def armedEvent : MidiEvent :=
  { sampleEvent with executed := false, scheduledTime := some 1100 }

/-- Witness for C5: on the concrete wrap pass, the fired event is reset
and the armed event is untouched. -/
theorem wrap_resets_exactly_executed_witness :
    passWrapStep wrapCtx [firedEvent, armedEvent] =
      [wrapResetFn firedEvent, wrapResetFn armedEvent] := by
  have h :=
    (wrap_resets_exactly_executed wrapCtx [firedEvent, armedEvent]
      (by norm_num [wrapCtx])
      (by
        norm_num [wrapCtx, PassCtx.wrapDetected, PassCtx.loopPosition,
          PassCtx.lastLoopPosition, jsRem, jsTrunc])).1
  simpa using h

/-! ## C1 — loadPattern on a malformed document is not atomic -/

/-- A scheduler holding one queued event and non-zero counters, as it
stands before a `loadPattern` call. -/
def loadedState : SchedulerState :=
  { baseState with
    events := [sampleEvent]
    stats := { baseStats with eventsScheduled := 2, eventsExecuted := 1 } }

/-- Counterexample for C1: passing a malformed (null) document to
`loadPattern` does surface a failure, but the live queue does not remain
as it was — it has already been cleared when the failure is raised. -/
theorem loadPattern_malformed_not_atomic :
    (loadPattern loadedState none).2 = true ∧
    ¬ (loadPattern loadedState none).1.1.events = loadedState.events := by
  refine ⟨rfl, ?_⟩
  intro h
  simp [loadPattern, clearS, stopAllNotes, loadedState] at h

/-- C1 (amended): loading a malformed (null) pattern document throws a
failure to the caller, but only after `clear()` has run: the scheduler is
left exactly in the post-clear state — in particular the queue is empty
and the scheduled/executed counters are zeroed — not in its pre-call
state. -/
theorem loadPattern_malformed_leaves_cleared_state (s : SchedulerState) :
    (loadPattern s none).2 = true ∧
    (loadPattern s none).1.1 = (clearS s).1 ∧
    (loadPattern s none).1.1.events = [] := by
  refine ⟨rfl, rfl, rfl⟩

/-! ## C2 — an armed event is skipped by subsequent passes -/

/-- Helper: an event that has not executed is untouched by the in-pass
wrap reset. -/
theorem eventAfterWrapOf_of_not_executed (ctx : PassCtx) (e : MidiEvent)
    (hex : e.executed = false) : eventAfterWrapOf ctx e = e := by
  unfold eventAfterWrapOf wrapResetFn
  rw [hex]
  simp

/-- C2: a scheduling pass skips every event whose armed fire timestamp
(`scheduledTime`) lies in the future: an armed event (one with an
outstanding timer, hence not yet executed — or any event at all when not
looping) is neither fired nor re-armed by the pass, so a single logical
occurrence has at most one outstanding timer. -/
theorem armed_event_is_skipped (ctx : PassCtx) (e : MidiEvent) (t : ℚ)
    (hnow : 0 ≤ ctx.now) (hst : e.scheduledTime = some t)
    (hfut : ctx.now < t)
    (harmed : e.executed = false ∨ ctx.loopLength = 0) :
    processEvent ctx e = .skip := by
  unfold processEvent
  by_cases h1 : e.executed = true ∧ ctx.loopLength = 0
  · rw [if_pos h1]
  · rw [if_neg h1, if_neg]
    intro hc
    have hex : e.executed = false := by
      rcases harmed with h | h
      · exact h
      · cases hb : e.executed
        · rfl
        · exact absurd ⟨hb, h⟩ h1
    have hsched :
        isScheduledForFuture (eventAfterWrapOf ctx e) ctx.now = true := by
      rw [eventAfterWrapOf_of_not_executed ctx e hex]
      unfold isScheduledForFuture
      rw [hst]
      exact decide_eq_true ⟨(lt_of_le_of_lt hnow hfut).ne', hfut⟩
    rw [hsched] at hc
    exact absurd hc.2.2 (by simp)

/-- A non-looping pass context at beat 0, used to exercise the armed
skip. -/
def armedCtx : PassCtx :=
  { now := 1000, currentBeat := 0, bpm := 120, quantum := 4
    playbackSpeed := 1, latencyCompensation := 0, lookaheadTime := 200
    loopLength := 0, lastScheduledBeat := -1, virtualBeatOffset := 0 }

/-- Witness for C2: the concrete armed event (stamped 1100, now 1000) is
skipped. -/
theorem armed_event_is_skipped_witness :
    processEvent armedCtx armedEvent = .skip :=
  armed_event_is_skipped armedCtx armedEvent 1100 (by norm_num [armedCtx])
    rfl (by norm_num [armedCtx]) (Or.inl rfl)

/-! ## C4 — the adjusted-delay split (corrected at exactly zero) -/

/-- Helper: the decision for an event inside the look-ahead window that
is not armed for the future is the immediate-versus-timer split on the
compensated delay. -/
theorem processEvent_in_window (ctx : PassCtx) (e : MidiEvent)
    (h1 : ¬(e.executed = true ∧ ctx.loopLength = 0))
    (h2 : 0 ≤ beatsUntilEventOf ctx e)
    (h3 : msUntilEventOf ctx e ≤ effectiveLookaheadOf ctx)
    (h4 : isScheduledForFuture (eventAfterWrapOf ctx e) ctx.now = false) :
    processEvent ctx e =
      if max 0 (compensatedDelayOf ctx e) = 0 ∧
          compensatedDelayOf ctx e < 0 then
        .fireNow (ctx.now + compensatedDelayOf ctx e)
      else
        .armTimer (max 0 (compensatedDelayOf ctx e))
          (ctx.now + compensatedDelayOf ctx e) := by
  unfold processEvent
  rw [if_neg h1, if_pos ⟨h2, h3, h4⟩]

/-- A non-looping pass context whose event sits nominally 200 ms away,
with latency compensation −200: the adjusted delay is exactly 0. -/
def zeroDelayCtx : PassCtx :=
  { now := 1000, currentBeat := 0, bpm := 120, quantum := 4
    playbackSpeed := 1, latencyCompensation := -200, lookaheadTime := 200
    loopLength := 0, lastScheduledBeat := -1, virtualBeatOffset := 0 }

/-- An unexecuted, unarmed note-on event 0.4 beats ahead (= 200 ms at
120 bpm, speed 1). -/
def nearEvent : MidiEvent := mkEvent { beat := 2/5 }

/-- Counterexample for C4: at an adjusted delay of exactly 0 (≤ 0, as
the claim's guard reads), the event is not fired immediately on the
pass — the source requires `compensatedDelay < 0` strictly, so here it
goes through a zero-delay deferred timer instead. -/
theorem zero_adjusted_delay_is_deferred :
    compensatedDelayOf zeroDelayCtx nearEvent ≤ 0 ∧
    (processEvent zeroDelayCtx nearEvent).isFireNow = false ∧
    processEvent zeroDelayCtx nearEvent =
      .armTimer 0 (zeroDelayCtx.now + compensatedDelayOf zeroDelayCtx nearEvent) := by
  have hcd : compensatedDelayOf zeroDelayCtx nearEvent = 0 := by
    norm_num [compensatedDelayOf, msUntilEventOf, beatsUntilEventOf,
      targetBeatOf, PassCtx.msPerBeat, MidiEvent.getAbsoluteBeat,
      zeroDelayCtx, nearEvent, mkEvent]
  have hbase := processEvent_in_window zeroDelayCtx nearEvent
    (by simp [nearEvent, mkEvent])
    (by
      norm_num [beatsUntilEventOf, targetBeatOf, MidiEvent.getAbsoluteBeat,
        zeroDelayCtx, nearEvent, mkEvent])
    (by
      norm_num [msUntilEventOf, beatsUntilEventOf, targetBeatOf,
        PassCtx.msPerBeat, effectiveLookaheadOf, MidiEvent.getAbsoluteBeat,
        zeroDelayCtx, nearEvent, mkEvent])
    rfl
  have hpe : processEvent zeroDelayCtx nearEvent =
      .armTimer 0 (zeroDelayCtx.now + compensatedDelayOf zeroDelayCtx nearEvent) := by
    rw [hbase, hcd]
    norm_num
  exact ⟨le_of_eq hcd, by rw [hpe]; rfl, hpe⟩

/-- C4 (amended): for an event in the look-ahead window that is not
already armed, an adjusted delay that is strictly negative fires the
event immediately on the current pass, while an adjusted delay ≥ 0
(including exactly 0) arms a one-shot timer for exactly that adjusted
delay — so a zero adjusted delay is a zero-delay deferred callback, not
an immediate fire. -/
theorem adjusted_delay_split (ctx : PassCtx) (e : MidiEvent)
    (hex : e.executed = false)
    (h2 : 0 ≤ beatsUntilEventOf ctx e)
    (h3 : msUntilEventOf ctx e ≤ effectiveLookaheadOf ctx)
    (h4 : isScheduledForFuture e ctx.now = false) :
    (compensatedDelayOf ctx e < 0 →
      processEvent ctx e = .fireNow (ctx.now + compensatedDelayOf ctx e)) ∧
    (0 ≤ compensatedDelayOf ctx e →
      processEvent ctx e =
        .armTimer (compensatedDelayOf ctx e)
          (ctx.now + compensatedDelayOf ctx e)) := by
  have h1 : ¬(e.executed = true ∧ ctx.loopLength = 0) := by
    rw [hex]
    simp
  have h4' : isScheduledForFuture (eventAfterWrapOf ctx e) ctx.now = false := by
    rw [eventAfterWrapOf_of_not_executed ctx e hex]
    exact h4
  have hbase := processEvent_in_window ctx e h1 h2 h3 h4'
  constructor
  · intro hcd
    rw [hbase, if_pos ⟨max_eq_left hcd.le, hcd⟩]
  · intro hcd
    rw [hbase, if_neg (fun hc => absurd hc.2 (not_lt.mpr hcd))]
    rw [max_eq_right hcd]

/-- The zero-delay context with compensation −300 instead: adjusted
delay −100, inside the widened window. -/
def earlyCtx : PassCtx := { zeroDelayCtx with latencyCompensation := -300 }

/-- The zero-delay context with no compensation: adjusted delay 200. -/
def timerCtx : PassCtx := { zeroDelayCtx with latencyCompensation := 0 }

/-- Witness for C4 (amended): at adjusted delay −100 the concrete event
fires immediately; at adjusted delay 200 a timer is armed for exactly
200 ms. -/
theorem adjusted_delay_split_witness :
    processEvent earlyCtx nearEvent =
      .fireNow (earlyCtx.now + compensatedDelayOf earlyCtx nearEvent) ∧
    processEvent timerCtx nearEvent =
      .armTimer (compensatedDelayOf timerCtx nearEvent)
        (timerCtx.now + compensatedDelayOf timerCtx nearEvent) := by
  constructor
  · exact (adjusted_delay_split earlyCtx nearEvent rfl
      (by
        norm_num [beatsUntilEventOf, targetBeatOf, MidiEvent.getAbsoluteBeat,
          earlyCtx, zeroDelayCtx, nearEvent, mkEvent])
      (by
        norm_num [msUntilEventOf, beatsUntilEventOf, targetBeatOf,
          PassCtx.msPerBeat, effectiveLookaheadOf, MidiEvent.getAbsoluteBeat,
          earlyCtx, zeroDelayCtx, nearEvent, mkEvent])
      rfl).1
      (by
        norm_num [compensatedDelayOf, msUntilEventOf, beatsUntilEventOf,
          targetBeatOf, PassCtx.msPerBeat, MidiEvent.getAbsoluteBeat,
          earlyCtx, zeroDelayCtx, nearEvent, mkEvent])
  · exact (adjusted_delay_split timerCtx nearEvent rfl
      (by
        norm_num [beatsUntilEventOf, targetBeatOf, MidiEvent.getAbsoluteBeat,
          timerCtx, zeroDelayCtx, nearEvent, mkEvent])
      (by
        norm_num [msUntilEventOf, beatsUntilEventOf, targetBeatOf,
          PassCtx.msPerBeat, effectiveLookaheadOf, MidiEvent.getAbsoluteBeat,
          timerCtx, zeroDelayCtx, nearEvent, mkEvent])
      rfl).2
      (by
        norm_num [compensatedDelayOf, msUntilEventOf, beatsUntilEventOf,
          targetBeatOf, PassCtx.msPerBeat, MidiEvent.getAbsoluteBeat,
          timerCtx, zeroDelayCtx, nearEvent, mkEvent])

/-! ## C6 — speed change clears executed flags but not the stamps -/

/-- An executed event still carrying its (stale) armed stamp. -/
def stampedEvent : MidiEvent :=
  { sampleEvent with executed := true, scheduledTime := some 5 }

/-- A scheduler holding the stamped event, at speed 1. -/
def stampedState : SchedulerState := { baseState with events := [stampedEvent] }

/-- Counterexample for C6: a speed change from 1.0 to 2.0 (well past the
epsilon) leaves an event's `scheduledTime` (armed fire timestamp) in
place — only the `executed` flags are cleared, the timestamps are not. -/
theorem speed_change_keeps_armed_stamp :
    1/20 <
      |stampedState.playbackSpeed - (setPlaybackSpeed stampedState 2).playbackSpeed| ∧
    (setPlaybackSpeed stampedState 2).events.map MidiEvent.scheduledTime =
      [some 5] := by
  have hclamp : max (1/10 : ℚ) (min 4 2) = 2 := by norm_num
  have hcond :
      (1/20 : ℚ) < |stampedState.playbackSpeed - max (1/10) (min 4 2)| := by
    rw [hclamp]
    norm_num [stampedState, baseState]
  have hs : setPlaybackSpeed stampedState 2 =
      { stampedState with
        playbackSpeed := max (1/10) (min 4 2)
        events := stampedState.events.map (fun e => { e with executed := false })
        virtualBeatOffset := some 0
        lastUpdateBeat := stampedState.jsBeat } := by
    simp only [setPlaybackSpeed]
    rw [if_pos hcond]
  rw [hs, hclamp]
  refine ⟨by norm_num [stampedState, baseState], ?_⟩
  simp [stampedState, stampedEvent]

/-- C6 (amended): when the clamped new speed differs from the old one by
more than the 0.05 epsilon, `setPlaybackSpeed` clears every event's
`executed` flag and resets the virtual-beat-offset tracker (offset 0,
last update beat re-read from the clock) — but it leaves every event's
`armedFireTimestamp` (`scheduledTime`) unchanged. -/
theorem speed_change_resets_executed_not_stamps (s : SchedulerState)
    (speed : ℚ)
    (h : 1/20 < |s.playbackSpeed - max (1/10) (min 4 speed)|) :
    (setPlaybackSpeed s speed).events =
      s.events.map (fun e => { e with executed := false }) ∧
    (setPlaybackSpeed s speed).events.map MidiEvent.scheduledTime =
      s.events.map MidiEvent.scheduledTime ∧
    (setPlaybackSpeed s speed).virtualBeatOffset = some 0 ∧
    (setPlaybackSpeed s speed).lastUpdateBeat = s.jsBeat ∧
    (setPlaybackSpeed s speed).playbackSpeed = max (1/10) (min 4 speed) := by
  have hs : setPlaybackSpeed s speed =
      { s with
        playbackSpeed := max (1/10) (min 4 speed)
        events := s.events.map (fun e => { e with executed := false })
        virtualBeatOffset := some 0
        lastUpdateBeat := s.jsBeat } := by
    simp only [setPlaybackSpeed]
    rw [if_pos h]
  rw [hs]
  refine ⟨rfl, ?_, rfl, rfl, rfl⟩
  simp [List.map_map]

/-- Witness for C6 (amended): the concrete speed change clears the
executed flag and keeps the stamp field intact. -/
theorem speed_change_resets_witness :
    (setPlaybackSpeed stampedState 2).events.map MidiEvent.scheduledTime =
      stampedState.events.map MidiEvent.scheduledTime ∧
    (setPlaybackSpeed stampedState 2).virtualBeatOffset = some 0 := by
  have h := speed_change_resets_executed_not_stamps stampedState 2
    (by norm_num [stampedState, baseState])
  exact ⟨h.2.1, h.2.2.1⟩

/-! ## C7 — firing against a disconnected transport -/

/-- A disconnected scheduler with some executions already recorded. -/
def disconnectedState : SchedulerState :=
  { baseState with
    midiService := { isConnected := false }
    stats := { baseStats with eventsExecuted := 7 } }

/-- Counterexample for C7: executing an event while the transport is
disconnected leaves the scheduler state — in particular the
`eventsExecuted` counter — completely unchanged, and counts nothing:
`executeEvent` returns before any bookkeeping. -/
theorem disconnected_drop_is_not_counted :
    (executeEvent disconnectedState sampleEvent 1234).1.stats.eventsExecuted = 7 ∧
    (executeEvent disconnectedState sampleEvent 1234).1 = disconnectedState ∧
    (executeEvent disconnectedState sampleEvent 1234).2 = [] := by
  refine ⟨rfl, rfl, rfl⟩

/-- C7 (amended): an event fired while the transport is disconnected is
silently dropped — nothing is sent, no error is raised, and the
scheduler state (all counters and the registry) is untouched — while the
firing callback still marks the event executed, so it does not remain
pending and the scheduler does not stall; but the `eventsExecuted`
counter does not advance and the drop itself is not counted anywhere. -/
theorem disconnected_fire_is_silent (s : SchedulerState) (e : MidiEvent)
    (now : ℚ) (hconn : s.midiService.isConnected = false)
    (hrun : s.isRunning = true) :
    timerFireEvent s e now = ((s, { e with executed := true }), []) := by
  cases hc : e.cancelled <;>
    simp [timerFireEvent, executeEvent, hconn, hrun, hc]

/-- Witness for C7 (amended): the concrete disconnected fire returns the
unchanged state, the executed-marked event and no messages. -/
theorem disconnected_fire_is_silent_witness :
    timerFireEvent disconnectedState sampleEvent 1234 =
      ((disconnectedState, { sampleEvent with executed := true }), []) :=
  disconnected_fire_is_silent disconnectedState sampleEvent 1234 rfl rfl

/-! ## C8 — safety note-offs cover all 128 notes and only the targets -/

/-- Helper: flat-mapping a singleton-valued function is mapping. -/
theorem flatMap_singleton_eq_map {α β : Type} (l : List α) (f : α → β) :
    l.flatMap (fun x => [f x]) = l.map f := by
  induction l with
  | nil => rfl
  | cons a t ih => simp [List.flatMap_cons, ih]

/-- C8: when the transport is connected, a safety note-off for target
channels `cs` sends a note-off for every one of the 128 MIDI note
numbers on every target channel — whatever the registry believes is
active — removes exactly the registry entries whose channel is a target,
and leaves the entries of every other channel unchanged. -/
theorem safety_noteoffs_cover_targets (s : SchedulerState) (cs : List ℤ)
    (hconn : s.midiService.isConnected = true) :
    (sendSafetyNoteOffs s (some cs) false).1 =
      { s with
        activeNotes :=
          s.activeNotes.filter (fun kv => !(cs.contains kv.1.1)) } ∧
    (sendSafetyNoteOffs s (some cs) false).2 =
      cs.flatMap
        (fun ch =>
          (List.range 128).map (fun n : ℕ => MidiMsg.noteOff (n : ℤ) ch)) ∧
    ∀ ch ∈ cs, ∀ n : ℕ, n < 128 →
      MidiMsg.noteOff (n : ℤ) ch ∈ (sendSafetyNoteOffs s (some cs) false).2 := by
  have hmsg : ∀ ch : ℤ,
      (List.range 128).flatMap (fun n => s.midiService.sendNoteOff (n : ℤ) ch) =
        (List.range 128).map (fun n : ℕ => MidiMsg.noteOff (n : ℤ) ch) := by
    intro ch
    have : ∀ n : ℕ, s.midiService.sendNoteOff (n : ℤ) ch =
        [MidiMsg.noteOff (n : ℤ) ch] := by
      intro n
      unfold MidiService.sendNoteOff
      rw [hconn]
      simp
    simp only [this]
    exact flatMap_singleton_eq_map _ _
  have hs : sendSafetyNoteOffs s (some cs) false =
      ({ s with
          activeNotes :=
            s.activeNotes.filter (fun kv => !(cs.contains kv.1.1)) },
       cs.flatMap
         (fun ch =>
           (List.range 128).flatMap
             (fun n => s.midiService.sendNoteOff (n : ℤ) ch))) := by
    unfold sendSafetyNoteOffs
    rw [hconn]
    simp
  refine ⟨by rw [hs], ?_, ?_⟩
  · rw [hs]
    simp only [hmsg]
  · intro ch hch n hn
    rw [hs]
    simp only [hmsg, List.mem_flatMap, List.mem_map, List.mem_range]
    exact ⟨ch, hch, n, hn, rfl⟩

/-- A scheduler whose registry holds notes on channels 0 and 2. -/
def registryState : SchedulerState :=
  { baseState with
    activeNotes := [((0, 60), sampleEvent), ((2, 61), sampleEvent)] }

/-- Witness for C8: clearing channels 0 and 1 removes only the
channel-0 entry (channel 2 survives) and the stream contains the
note-off for note 5 on channel 1. -/
theorem safety_noteoffs_cover_targets_witness :
    (sendSafetyNoteOffs registryState (some [0, 1]) false).1 =
      { registryState with
        activeNotes :=
          registryState.activeNotes.filter
            (fun kv => !(([0, 1] : List ℤ).contains kv.1.1)) } ∧
    MidiMsg.noteOff 5 1 ∈
      (sendSafetyNoteOffs registryState (some [0, 1]) false).2 := by
  have h := safety_noteoffs_cover_targets registryState [0, 1] rfl
  exact ⟨h.1, h.2.2 1 (by simp) 5 (by norm_num)⟩

/-! ## C3 — addNote inserts exactly one matching note-off at on + d -/

/-- Whether an event is a `NOTE_OFF` for the given note and channel. -/
def matchesOff (n c : ℤ) (e : MidiEvent) : Bool :=
  decide (e.type = EventType.noteOff ∧ e.note = n ∧ e.channel = c)

/-- Note parameters whose absolute off position is negative: bar 0,
beat −5, duration 0. -/
def negNote : NoteParams := { beat := -5, duration := 0 }

/-- Counterexample for C3: for a call whose absolute off position is
negative (bar 0, beat −5, duration 0, quantum 4), the inserted
`NOTE_OFF`'s absolute beat position `offBar * quantum + offBeatInBar`
does **not** equal the `NOTE_ON`'s absolute position plus the duration:
`Math.floor` rounds the bar down while the truncating `%` keeps the
dividend's sign, so the two split terms disagree
(−2·4 + (−1) = −9 ≠ −5). -/
theorem addNote_off_position_wrong_when_negative :
    ¬ ((noteOffEventOf baseState.jsQuantum negNote).getAbsoluteBeat
          baseState.jsQuantum =
        (noteOnEventOf negNote).getAbsoluteBeat baseState.jsQuantum +
          negNote.duration) := by
  have hq : baseState.jsQuantum = 4 := by
    norm_num [SchedulerState.jsQuantum, baseState, theLink, orElseNum]
  rw [hq]
  norm_num [noteOffEventOf, noteOnEventOf, mkEvent, MidiEvent.getAbsoluteBeat,
    jsRem, jsTrunc, negNote, Int.ceil_neg]

/-- C3 (amended): for every call whose quantum is positive and whose
absolute off position `b * quantum + β + d` is non-negative — every
musical position — `addNote` with bar `b`, beat `β`, duration `d`,
note `n`, channel `c` inserts exactly one matching `NOTE_OFF` (same note
and channel; the count of matching note-offs in the queue grows by
exactly one, the queue being otherwise the old queue plus the new on/off
pair up to re-sorting), and the off event's absolute beat position
`offBar * quantum + offBeatInBar` — computed with floor and the `%`
remainder against the quantum — equals the `NOTE_ON`'s absolute beat
position `b * quantum + β` plus `d`.  For a negative off position the
floor/truncating-remainder split misplaces the off event. -/
theorem addNote_inserts_one_matching_off (s : SchedulerState)
    (p : NoteParams) (hq : 0 < s.jsQuantum)
    (hpos : 0 ≤ p.bar * s.jsQuantum + p.beat + p.duration) :
    (addNote s p).events.countP (matchesOff p.note p.channel) =
      s.events.countP (matchesOff p.note p.channel) + 1 ∧
    (addNote s p).events.Perm
      (s.events ++ [noteOnEventOf p, noteOffEventOf s.jsQuantum p]) ∧
    (noteOffEventOf s.jsQuantum p).type = EventType.noteOff ∧
    (noteOffEventOf s.jsQuantum p).note = p.note ∧
    (noteOffEventOf s.jsQuantum p).channel = p.channel ∧
    (noteOffEventOf s.jsQuantum p).getAbsoluteBeat s.jsQuantum =
      (noteOnEventOf p).getAbsoluteBeat s.jsQuantum + p.duration := by
  have hev : (addNote s p).events =
      (((s.events ++ [noteOnEventOf p]).mergeSort
          (fun a b =>
            decide (a.getAbsoluteBeat s.jsQuantum ≤
              b.getAbsoluteBeat s.jsQuantum)) ++
        [noteOffEventOf s.jsQuantum p]).mergeSort
          (fun a b =>
            decide (a.getAbsoluteBeat s.jsQuantum ≤
              b.getAbsoluteBeat s.jsQuantum))) := rfl
  have h1 : ((s.events ++ [noteOnEventOf p]).mergeSort
      (fun a b =>
        decide (a.getAbsoluteBeat s.jsQuantum ≤
          b.getAbsoluteBeat s.jsQuantum))).Perm
      (s.events ++ [noteOnEventOf p]) := List.mergeSort_perm _ _
  have hperm : (addNote s p).events.Perm
      (s.events ++ [noteOnEventOf p, noteOffEventOf s.jsQuantum p]) := by
    rw [hev]
    refine (List.mergeSort_perm _ _).trans ?_
    refine (h1.append_right [noteOffEventOf s.jsQuantum p]).trans ?_
    rw [List.append_assoc]
    exact List.Perm.refl _
  have hcount : (addNote s p).events.countP (matchesOff p.note p.channel) =
      s.events.countP (matchesOff p.note p.channel) + 1 := by
    rw [hperm.countP_eq, List.countP_append]
    have hon : matchesOff p.note p.channel (noteOnEventOf p) = false := by
      simp [matchesOff, noteOnEventOf, mkEvent]
    have hoff :
        matchesOff p.note p.channel (noteOffEventOf s.jsQuantum p) = true := by
      simp [matchesOff, noteOffEventOf, mkEvent]
    simp [List.countP_cons, hon, hoff]
  have hbeat : (noteOffEventOf s.jsQuantum p).getAbsoluteBeat s.jsQuantum =
      (noteOnEventOf p).getAbsoluteBeat s.jsQuantum + p.duration := by
    have hx : 0 ≤ (p.bar * s.jsQuantum + p.beat + p.duration) / s.jsQuantum :=
      div_nonneg hpos hq.le
    simp only [noteOffEventOf, noteOnEventOf, mkEvent,
      MidiEvent.getAbsoluteBeat, jsRem, jsTrunc]
    rw [if_pos hx]
    ring
  exact ⟨hcount, hperm, rfl, rfl, rfl, hbeat⟩

/-- The default note parameters (note 60, channel 0, quarter-beat). -/
def defaultNote : NoteParams := {}

/-- Witness for C3: adding the default note to the fresh scheduler puts
exactly one matching note-off (note 60, channel 0) into the queue. -/
theorem addNote_inserts_one_matching_off_witness :
    (addNote baseState defaultNote).events.countP (matchesOff 60 0) =
      baseState.events.countP (matchesOff 60 0) + 1 :=
  (addNote_inserts_one_matching_off baseState defaultNote
    (by norm_num [SchedulerState.jsQuantum, baseState, theLink, orElseNum])
    (by norm_num [SchedulerState.jsQuantum, baseState, theLink, orElseNum,
      defaultNote])).1

end MidiSched
